import Mathlib

/-!
Shallow embedding of `ebcpdf2epub.py`, the batch driver of the pdf2epub
repository, together with proofs of the specification claims about it.

The driver's own code is embedded faithfully; the two external collaborators
(`modules.pdf2md` and `modules.mark2epub`), the filesystem and the CUDA probe
are modelled as oracles gathered in an `Env` record, since their internals are
outside this repository. Console prints and the two external conversion calls
are recorded as events in a trace; a Python exception that escapes the per-job
`try`/`except` handler shows up as the `Option String` component of a run.
-/

namespace Ebc

/-- A CSV row as produced by `csv.DictReader`: a finite string-to-string
dictionary, modelled as an association list (first match wins; keys are
unique as built). -/
abbrev Row := List (String × String)

/-- The metadata mapping built by `load_metadata_from_csv`: document ID to row. -/
abbrev Metadata := List (String × Row)

/-- Lookup in a row dictionary (`row[k]` / `k in row`). -/
def rowLookup : Row → String → Option String
  | [], _ => none
  | (k0, v) :: rest, k => if k0 = k then some v else rowLookup rest k

/-- Lookup in the metadata dictionary (`metadata_dict.get(pdf_id, ...)`). -/
def metaLookup : Metadata → String → Option Row
  | [], _ => none
  | (k0, v) :: rest, k => if k0 = k then some v else metaLookup rest k

/-- Python dict assignment `metadata[k] = row`: overwrite an existing key in
place, otherwise append. -/
def dictInsert : Metadata → String → Row → Metadata
  | [], k, v => [(k, v)]
  | (k0, v0) :: rest, k, v =>
      if k0 = k then (k0, v) :: rest else (k0, v0) :: dictInsert rest k v

/-- The outcome of reading and iterating the CSV file: either every row was
yielded, or an exception (unreadable file, bad encoding, permission error)
interrupted the iteration after yielding some prefix of rows. An unreadable
path is `failedAfter [] e`: `open` raises before any row is yielded. -/
inductive CsvRead where
  | ok (rows : List Row)
  | failedAfter (rowsBefore : List Row) (err : String)

/-- A filesystem path, as a list of segments (`pathlib` joins become list
append, `.parent` becomes `dropLast`). -/
abbrev Path := List String

/-- Rendering of a path for log messages (`str`/f-string interpolation). -/
def pathStr (p : Path) : String := String.intercalate "/" p

/-- One entry of the PDF queue: `pdf_path.stem` and `pdf_path.name` are the
two attributes the driver reads. -/
structure PdfPath where
  stem : String
  name : String
deriving DecidableEq, Repr

/-- The parsed command-line arguments (`argparse` surface of `main`).
`output_path` and `input_path` are `none` when absent or empty (Python
truthiness of the optional positional string). -/
structure Args where
  input_path : Option String := none
  output_path : Option Path := none
  batch_multiplier : Int := 2
  max_pages : Option Int := none
  start_page : Option Int := none
  langs : Option String := none
  skip_epub : Bool := false
  skip_md : Bool := false

/-- The metadata bundle assembled for `mark2epub.convert_to_epub`. -/
structure EpubMeta where
  title : String
  authors : String
  language : String
  publisher : String
  publication_date : String
  identifier : String
  rights : String
deriving DecidableEq, Repr

/-- Observable events of a run: console prints and the two external
conversion-stage invocations with their exact arguments. -/
inductive Event where
  | log (msg : String)
  | convertPdfCall (pdf : PdfPath) (markdown_dir : Path) (batch_multiplier : Int)
      (max_pages : Option Int) (start_page : Option Int) (langs : Option String)
  | convertEpubCall (markdown_dir : Path) (output_path : Path) (meta : EpubMeta)
deriving DecidableEq, Repr

/-- How one job of the loop body ends: normal completion, `continue` because
the markdown directory is missing under `--skip-md`, an exception caught by
the per-job handler, or an exception raised outside it (fatal to the batch). -/
inductive JobOutcome where
  | done
  | skipped
  | failed (msg : String)
  | fatal (msg : String)
deriving DecidableEq, Repr

/-- The environment of oracles standing for everything outside the driver:
the two external modules, the filesystem and the CUDA probe. `Except.error`
from a conversion oracle models that call raising. -/
structure Env where
  cudaAvailable : Bool
  defaultInputDir : String
  addPdfsToQueue : String → List PdfPath
  defaultOutputDir : PdfPath → Path
  dirExists : Path → Bool
  convertPdf : PdfPath → Path → Int → Option Int → Option Int → Option String →
      Except String Unit
  convertToEpub : Path → Path → EpubMeta → Except String Unit

/-- The loader `load_metadata_from_csv`: iterate the yielded rows, keeping
every row that has a `Document ID` key, keyed by that field; an exception is
caught, printed, and the mapping accumulated so far is returned. Returns the
print events together with the mapping. -/
def load_metadata_from_csv (read : CsvRead) : List Event × Metadata :=
  match read with
  | CsvRead.ok rows =>
      ([], rows.foldl
        (fun m row =>
          match rowLookup row "Document ID" with
          | some id => dictInsert m id row
          | none => m) [])
  | CsvRead.failedAfter rows e =>
      ([Event.log ("Error loading metadata from CSV: " ++ e)],
       rows.foldl
        (fun m row =>
          match rowLookup row "Document ID" with
          | some id => dictInsert m id row
          | none => m) [])

/-- Python `str.lower()`, modelled characterwise (kernel-reducible, unlike
`String.toLower`). -/
def strLower (s : String) : String := String.mk (s.data.map Char.toLower)

/-- Dictionary access `row[k]`: raises `KeyError` when the key is absent. -/
def rowGet (row : Row) (k : String) : Except String String :=
  match rowLookup row k with
  | some v => Except.ok v
  | none => Except.error ("KeyError: " ++ k)

/-- The `epub_metadata` dict literal of `main` (lines 145-153): six lookups in
source order, a lowercased language code, and the constant rights string. Any
missing key raises, propagating the first `KeyError` hit. -/
def assembleEpubMeta (row : Row) : Except String EpubMeta :=
  match rowGet row "Title" with
  | Except.error e => Except.error e
  | Except.ok t =>
    match rowGet row "Authors" with
    | Except.error e => Except.error e
    | Except.ok a =>
      match rowGet row "Language Code" with
      | Except.error e => Except.error e
      | Except.ok l =>
        match rowGet row "Publisher" with
        | Except.error e => Except.error e
        | Except.ok pub =>
          match rowGet row "PublicationDate" with
          | Except.error e => Except.error e
          | Except.ok pd =>
            match rowGet row "EIsbn" with
            | Except.error e => Except.error e
            | Except.ok isbn =>
              Except.ok
                { title := t, authors := a, language := strLower l,
                  publisher := pub, publication_date := pd,
                  identifier := isbn, rights := "All rights reserved" }

/-- Directory resolution of `main` (lines 114-119): with a truthy
`args.output_path` the markdown directory is `output_path / pdf_path.stem` and
the output path is kept; otherwise both derive from
`pdf2md.get_default_output_dir(pdf_path)`. Returns
`(markdown_dir, output_path)`. -/
def resolveDirs (output_path : Option Path) (env : Env) (p : PdfPath) : Path × Path :=
  match output_path with
  | some op => (op ++ [p.stem], op)
  | none => (env.defaultOutputDir p, (env.defaultOutputDir p).dropLast)

/-- The `print(f"Processing ...")` event at the top of the loop body. -/
def procLog (p : PdfPath) : Event :=
  Event.log ("Processing " ++ p.name ++ ", doc ID " ++ p.stem)

/-- The `print(f"Error processing ...")` event of the per-job `except` clause. -/
def errLog (p : PdfPath) (e : String) : Event :=
  Event.log ("Error processing " ++ p.name ++ ": " ++ e)

/-- Lines 142-155: print, assemble the EPUB metadata (which may raise
`KeyError`), and call `mark2epub.convert_to_epub`; an exception in either is
caught by the surrounding handler, modelled here by the `failed` outcome. -/
def epubStage (env : Env) (markdown_dir output_path : Path) (p : PdfPath)
    (row : Row) : List Event × JobOutcome :=
  match assembleEpubMeta row with
  | Except.error e =>
      ([Event.log "Converting Markdown to EPUB...", errLog p e],
       JobOutcome.failed e)
  | Except.ok m =>
    match env.convertToEpub markdown_dir output_path m with
    | Except.error e =>
        ([Event.log "Converting Markdown to EPUB...",
          Event.convertEpubCall markdown_dir output_path m, errLog p e],
         JobOutcome.failed e)
    | Except.ok _ =>
        ([Event.log "Converting Markdown to EPUB...",
          Event.convertEpubCall markdown_dir output_path m],
         JobOutcome.done)

/-- The body of the per-job `try` block (lines 122-155): the `--skip-md`
existence check with its `continue`, the optional PDF-to-Markdown call, then
the EPUB stage. -/
def jobTry (args : Args) (env : Env) (markdown_dir output_path : Path)
    (p : PdfPath) (row : Row) : List Event × JobOutcome :=
  if args.skip_md then
    if env.dirExists markdown_dir then
      let r := epubStage env markdown_dir output_path p row
      (Event.log ("Using existing markdown files from: " ++ pathStr markdown_dir)
         :: r.1, r.2)
    else
      ([Event.log ("Error: Markdown directory not found: " ++ pathStr markdown_dir)],
       JobOutcome.skipped)
  else
    match env.convertPdf p markdown_dir args.batch_multiplier args.max_pages
        args.start_page args.langs with
    | Except.error e =>
        ([Event.log "Converting PDF to Markdown...",
          Event.convertPdfCall p markdown_dir args.batch_multiplier
            args.max_pages args.start_page args.langs,
          errLog p e],
         JobOutcome.failed e)
    | Except.ok _ =>
        let r := epubStage env markdown_dir output_path p row
        (Event.log "Converting PDF to Markdown..."
           :: Event.convertPdfCall p markdown_dir args.batch_multiplier
               args.max_pages args.start_page args.langs
           :: r.1, r.2)

/-- One iteration of the loop of `main` (lines 103-159): metadata lookup with
the truthiness check raising OUTSIDE the `try` block, directory resolution,
then the guarded body. -/
def processJob (args : Args) (env : Env) (md : Metadata) (p : PdfPath) :
    List Event × JobOutcome :=
  let row := (metaLookup md p.stem).getD []
  if row = [] then
    ([procLog p], JobOutcome.fatal ("No metadata found for " ++ p.stem))
  else
    let dirs := resolveDirs args.output_path env p
    let r := jobTry args env dirs.1 dirs.2 p row
    (procLog p :: r.1, r.2)

/-- The `for pdf_path in queue` loop: a fatal outcome stops the run with an
uncaught exception; every other outcome continues with the next PDF. -/
def runQueue (args : Args) (env : Env) (md : Metadata) :
    List PdfPath → List Event × Option String
  | [] => ([], none)
  | p :: rest =>
    let r := processJob args env md p
    match r.2 with
    | JobOutcome.fatal e => (r.1, some e)
    | _ =>
      let rr := runQueue args env md rest
      (r.1 ++ rr.1, rr.2)

/-- The whole of `main`: load the metadata, print the startup messages,
resolve the input path, build the queue, and process it. -/
def mainRun (args : Args) (env : Env) (read : CsvRead) :
    List Event × Option String :=
  let loaded := load_metadata_from_csv read
  let metadata_dict := loaded.2
  let warnEvents :=
    if metadata_dict = [] then
      [Event.log "Warning: No metadata found in ebcmetadata.csv or file could not be read"]
    else []
  let loadLog :=
    Event.log ("Loaded metadata for " ++ toString metadata_dict.length ++ " titles")
  let cudaLog :=
    if env.cudaAvailable then
      Event.log "CUDA is available. Using GPU for processing."
    else
      Event.log "CUDA is not available. Using CPU for processing."
  let input_path :=
    match args.input_path with
    | some s => s
    | none => env.defaultInputDir
  let queue := env.addPdfsToQueue input_path
  let foundLog :=
    Event.log ("Found " ++ toString queue.length ++ " PDF files to process")
  let r := runQueue args env metadata_dict queue
  (loaded.1 ++ warnEvents ++ [loadLog, cudaLog, foundLog] ++ r.1, r.2)

/-! ### Helper lemmas shared by the claim proofs -/

/-- The EPUB stage never ends in a fatal outcome: every raise inside it is
within the per-job handler. -/
theorem epubStage_ne_fatal (env : Env) (d o : Path) (p : PdfPath) (row : Row)
    (e : String) : (epubStage env d o p row).2 ≠ JobOutcome.fatal e := by
  unfold epubStage
  split
  · simp
  · split <;> simp

/-- The whole `try` body never ends in a fatal outcome. -/
theorem jobTry_ne_fatal (args : Args) (env : Env) (d o : Path) (p : PdfPath)
    (row : Row) (e : String) : (jobTry args env d o p row).2 ≠ JobOutcome.fatal e := by
  unfold jobTry
  split
  · split
    · simpa using epubStage_ne_fatal env d o p row e
    · simp
  · split
    · simp
    · simpa using epubStage_ne_fatal env d o p row e

/-- Evaluation of `processJob` when the metadata record is missing or empty:
the uncaught raise of line 111. -/
theorem processJob_empty (args : Args) (env : Env) (md : Metadata) (p : PdfPath)
    (h : (metaLookup md p.stem).getD [] = []) :
    processJob args env md p =
      ([procLog p], JobOutcome.fatal ("No metadata found for " ++ p.stem)) := by
  simp [processJob, h]

/-- Evaluation of `processJob` when the metadata record is nonempty: the
guarded `try` body runs after directory resolution. -/
theorem processJob_nonempty (args : Args) (env : Env) (md : Metadata) (p : PdfPath)
    (h : (metaLookup md p.stem).getD [] ≠ []) :
    processJob args env md p =
      (procLog p ::
        (jobTry args env (resolveDirs args.output_path env p).1
          (resolveDirs args.output_path env p).2 p
          ((metaLookup md p.stem).getD [])).1,
       (jobTry args env (resolveDirs args.output_path env p).1
          (resolveDirs args.output_path env p).2 p
          ((metaLookup md p.stem).getD [])).2) := by
  simp [processJob, h]

/-- A job with a nonempty metadata record never ends fatally. -/
theorem processJob_ne_fatal (args : Args) (env : Env) (md : Metadata) (p : PdfPath)
    (h : (metaLookup md p.stem).getD [] ≠ []) (e : String) :
    (processJob args env md p).2 ≠ JobOutcome.fatal e := by
  rw [processJob_nonempty args env md p h]
  exact jobTry_ne_fatal args env _ _ p _ e

/-- Unfolding of the loop on a job that does not end fatally: its events are
emitted and the loop continues with the rest of the queue. -/
theorem runQueue_cons (args : Args) (env : Env) (md : Metadata) (p : PdfPath)
    (rest : List PdfPath)
    (h : ∀ e, (processJob args env md p).2 ≠ JobOutcome.fatal e) :
    runQueue args env md (p :: rest) =
      ((processJob args env md p).1 ++ (runQueue args env md rest).1,
       (runQueue args env md rest).2) := by
  cases hq : (processJob args env md p).2 with
  | done => simp [runQueue, hq]
  | skipped => simp [runQueue, hq]
  | failed e => simp [runQueue, hq]
  | fatal e => exact absurd hq (h e)

/-- Unfolding of the loop on a job that ends fatally: the run stops with the
uncaught exception. -/
theorem runQueue_cons_fatal (args : Args) (env : Env) (md : Metadata) (p : PdfPath)
    (rest : List PdfPath) (e : String)
    (h : (processJob args env md p).2 = JobOutcome.fatal e) :
    runQueue args env md (p :: rest) = ((processJob args env md p).1, some e) := by
  simp [runQueue, h]

/-- Dictionary access succeeds exactly on present keys. -/
theorem rowGet_ok_iff (row : Row) (k v : String) :
    rowGet row k = Except.ok v ↔ rowLookup row k = some v := by
  unfold rowGet
  cases h : rowLookup row k <;> simp

/-- Inversion of a successful metadata assembly: the rights string is the
constant, the language is the lowercased CSV value, and all six source keys
were present in the row. -/
theorem assembleEpubMeta_ok_spec (row : Row) (m : EpubMeta)
    (h : assembleEpubMeta row = Except.ok m) :
    m.rights = "All rights reserved" ∧
    (∃ v, rowLookup row "Language Code" = some v ∧ m.language = strLower v) ∧
    ∀ f ∈ ["Title", "Authors", "Language Code", "Publisher", "PublicationDate",
      "EIsbn"], (rowLookup row f).isSome := by
  unfold assembleEpubMeta at h
  cases h1 : rowGet row "Title" with
  | error e => rw [h1] at h; cases h
  | ok t =>
  rw [h1] at h
  cases h2 : rowGet row "Authors" with
  | error e => rw [h2] at h; cases h
  | ok a =>
  rw [h2] at h
  cases h3 : rowGet row "Language Code" with
  | error e => rw [h3] at h; cases h
  | ok l =>
  rw [h3] at h
  cases h4 : rowGet row "Publisher" with
  | error e => rw [h4] at h; cases h
  | ok pub =>
  rw [h4] at h
  cases h5 : rowGet row "PublicationDate" with
  | error e => rw [h5] at h; cases h
  | ok pd =>
  rw [h5] at h
  cases h6 : rowGet row "EIsbn" with
  | error e => rw [h6] at h; cases h
  | ok isbn =>
  rw [h6] at h
  cases h
  refine ⟨rfl, ⟨l, (rowGet_ok_iff row _ l).mp h3, rfl⟩, ?_⟩
  intro f hf
  simp only [List.mem_cons, List.not_mem_nil, or_false] at hf
  rcases hf with rfl | rfl | rfl | rfl | rfl | rfl
  · rw [(rowGet_ok_iff row _ t).mp h1]; rfl
  · rw [(rowGet_ok_iff row _ a).mp h2]; rfl
  · rw [(rowGet_ok_iff row _ l).mp h3]; rfl
  · rw [(rowGet_ok_iff row _ pub).mp h4]; rfl
  · rw [(rowGet_ok_iff row _ pd).mp h5]; rfl
  · rw [(rowGet_ok_iff row _ isbn).mp h6]; rfl

/-- Evaluation of the EPUB stage when metadata assembly raises. -/
theorem epubStage_error (env : Env) (d o : Path) (p : PdfPath) (row : Row)
    (e : String) (hA : assembleEpubMeta row = Except.error e) :
    epubStage env d o p row =
      ([Event.log "Converting Markdown to EPUB...", errLog p e],
       JobOutcome.failed e) := by
  unfold epubStage
  rw [hA]

/-- Evaluation of the `try` body under `--skip-md` with an existing markdown
directory. -/
theorem jobTry_skip_exists (args : Args) (env : Env) (d o : Path) (p : PdfPath)
    (row : Row) (hs : args.skip_md = true) (hd : env.dirExists d = true) :
    jobTry args env d o p row =
      (Event.log ("Using existing markdown files from: " ++ pathStr d)
         :: (epubStage env d o p row).1,
       (epubStage env d o p row).2) := by
  simp [jobTry, hs, hd]

/-- Evaluation of the `try` body without `--skip-md` when the PDF-to-Markdown
call returns normally. -/
theorem jobTry_md_ok (args : Args) (env : Env) (d o : Path) (p : PdfPath)
    (row : Row) (hs : args.skip_md = false)
    (hc : env.convertPdf p d args.batch_multiplier args.max_pages args.start_page
        args.langs = Except.ok ()) :
    jobTry args env d o p row =
      (Event.log "Converting PDF to Markdown..."
         :: Event.convertPdfCall p d args.batch_multiplier args.max_pages
             args.start_page args.langs
         :: (epubStage env d o p row).1,
       (epubStage env d o p row).2) := by
  simp [jobTry, hs, hc]

/-- The EPUB stage emits no PDF-to-Markdown call event. -/
theorem epubStage_no_pdfCall (env : Env) (d0 o0 : Path) (p : PdfPath) (row : Row)
    (q : PdfPath) (d : Path) (bm : Int) (mp sp : Option Int) (l : Option String) :
    Event.convertPdfCall q d bm mp sp l ∉ (epubStage env d0 o0 p row).1 := by
  unfold epubStage
  cases hA : assembleEpubMeta row with
  | error e => simp [errLog]
  | ok m =>
      cases hc : env.convertToEpub d0 o0 m with
      | error e => simp [hc, errLog]
      | ok u => simp [hc]

/-- Case analysis on an `Except` value as explicit equations. -/
theorem except_eq_cases {α β : Type} (x : Except α β) :
    (∃ e, x = Except.error e) ∨ (∃ v, x = Except.ok v) := by
  cases x with
  | error e => exact Or.inl ⟨e, rfl⟩
  | ok v => exact Or.inr ⟨v, rfl⟩

/-- A caught failure of the EPUB stage is logged with the filename. -/
theorem epubStage_failed_logged (env : Env) (d o : Path) (p : PdfPath) (row : Row)
    (msg : String) (h : (epubStage env d o p row).2 = JobOutcome.failed msg) :
    errLog p msg ∈ (epubStage env d o p row).1 := by
  unfold epubStage at h ⊢
  rcases except_eq_cases (assembleEpubMeta row) with ⟨e, hA⟩ | ⟨m0, hA⟩
  · rw [hA] at h ⊢
    simp at h
    simp [h]
  · rw [hA] at h ⊢
    rcases except_eq_cases (env.convertToEpub d o m0) with ⟨e, hc⟩ | ⟨u, hc⟩
    · simp [hc] at h ⊢
      simp [h]
    · simp [hc] at h

/-- A caught failure of the `try` body is logged with the filename. -/
theorem jobTry_failed_logged (args : Args) (env : Env) (d o : Path) (p : PdfPath)
    (row : Row) (msg : String)
    (h : (jobTry args env d o p row).2 = JobOutcome.failed msg) :
    errLog p msg ∈ (jobTry args env d o p row).1 := by
  unfold jobTry at h ⊢
  by_cases hs : args.skip_md
  · rw [if_pos hs] at h ⊢
    by_cases hd : env.dirExists d
    · rw [if_pos hd] at h ⊢
      simp only [] at h ⊢
      exact List.mem_cons_of_mem _ (epubStage_failed_logged env d o p row msg h)
    · rw [if_neg hd] at h
      simp at h
  · rw [if_neg hs] at h ⊢
    rcases except_eq_cases (env.convertPdf p d args.batch_multiplier args.max_pages
        args.start_page args.langs) with ⟨e, hc⟩ | ⟨u, hc⟩
    · rw [hc] at h ⊢
      simp at h
      simp [h]
    · rw [hc] at h ⊢
      simp only [] at h ⊢
      exact List.mem_cons_of_mem _
        (List.mem_cons_of_mem _ (epubStage_failed_logged env d o p row msg h))

/-- Inversion of an EPUB-call event in the EPUB stage trace: the call uses the
stage's directories and the successfully assembled metadata. -/
theorem epubStage_call_inv (env : Env) (d0 o0 d o : Path) (p : PdfPath)
    (row : Row) (m : EpubMeta)
    (h : Event.convertEpubCall d o m ∈ (epubStage env d0 o0 p row).1) :
    d = d0 ∧ o = o0 ∧ assembleEpubMeta row = Except.ok m := by
  unfold epubStage at h
  rcases except_eq_cases (assembleEpubMeta row) with ⟨e, hA⟩ | ⟨m0, hA⟩
  · rw [hA] at h
    simp [errLog] at h
  · rw [hA] at h
    rcases except_eq_cases (env.convertToEpub d0 o0 m0) with ⟨e, hc⟩ | ⟨u, hc⟩
    · simp [hc, errLog] at h
      obtain ⟨h1, h2, h3⟩ := h
      subst h1; subst h2; subst h3
      exact ⟨rfl, rfl, hA⟩
    · simp [hc] at h
      obtain ⟨h1, h2, h3⟩ := h
      subst h1; subst h2; subst h3
      exact ⟨rfl, rfl, hA⟩

/-- Inversion of an EPUB-call event in the `try` body trace. -/
theorem jobTry_call_inv (args : Args) (env : Env) (d0 o0 d o : Path) (p : PdfPath)
    (row : Row) (m : EpubMeta)
    (h : Event.convertEpubCall d o m ∈ (jobTry args env d0 o0 p row).1) :
    d = d0 ∧ o = o0 ∧ assembleEpubMeta row = Except.ok m := by
  unfold jobTry at h
  by_cases hs : args.skip_md
  · rw [if_pos hs] at h
    by_cases hd : env.dirExists d0
    · rw [if_pos hd] at h
      simp only [] at h
      rcases List.mem_cons.mp h with h0 | h0
      · cases h0
      · exact epubStage_call_inv env d0 o0 d o p row m h0
    · rw [if_neg hd] at h
      simp at h
  · rw [if_neg hs] at h
    rcases except_eq_cases (env.convertPdf p d0 args.batch_multiplier args.max_pages
        args.start_page args.langs) with ⟨e, hc⟩ | ⟨u, hc⟩
    · rw [hc] at h
      simp [errLog] at h
    · rw [hc] at h
      simp only [] at h
      rcases List.mem_cons.mp h with h0 | h0
      · cases h0
      · rcases List.mem_cons.mp h0 with h1 | h1
        · cases h1
        · exact epubStage_call_inv env d0 o0 d o p row m h1

/-- The per-job processing never reads `skip_epub`: changing that field alone
changes nothing in a job. -/
theorem processJob_skip_epub (args : Args) (b : Bool) (env : Env) (md : Metadata)
    (p : PdfPath) :
    processJob { args with skip_epub := b } env md p = processJob args env md p := rfl

/-- The queue loop never reads `skip_epub`. -/
theorem runQueue_skip_epub (args : Args) (b : Bool) (env : Env) (md : Metadata) :
    ∀ q, runQueue { args with skip_epub := b } env md q = runQueue args env md q := by
  intro q
  induction q with
  | nil => rfl
  | cons p rest ih => simp only [runQueue, processJob_skip_epub, ih]

/-! ### The claims -/

/-- C4: for every CSV path that is unreadable (the read raises before any row
is yielded), `load_metadata_from_csv` does not raise: it reports the error as
a print event and returns the empty mapping. -/
theorem unreadable_csv_empty_mapping (e : String) :
    load_metadata_from_csv (CsvRead.failedAfter [] e) =
      ([Event.log ("Error loading metadata from CSV: " ++ e)], []) := rfl

/-- C2: the `--skip-epub` flag is accepted (it is a field of the parsed
arguments) but never consulted: for every input configuration, the entire
run of the driver — its event trace, hence in particular whether any
Markdown-to-EPUB conversion is invoked, and its uncaught exception — is
identical with `--skip-epub` set and unset, all other inputs equal. -/
theorem skip_epub_has_no_effect (args : Args) (env : Env) (read : CsvRead)
    (b1 b2 : Bool) :
    mainRun { args with skip_epub := b1 } env read =
    mainRun { args with skip_epub := b2 } env read := by
  unfold mainRun
  simp only [runQueue_skip_epub args b1 env, runQueue_skip_epub args b2 env]

/-- C8: directory resolution per job: with an explicit output path, the
markdown directory is that path joined with the document ID and the output
path is kept as supplied; otherwise the markdown directory is the external
module's default output directory for the PDF and the output path is its
parent. The resolved markdown directory is exactly what the PDF-to-Markdown
invocation of the job receives. -/
theorem directory_resolution (args : Args) (env : Env) (md : Metadata)
    (p : PdfPath) (op : Path)
    (h1 : args.skip_md = false)
    (h2 : (metaLookup md p.stem).getD [] ≠ []) :
    resolveDirs (some op) env p = (op ++ [p.stem], op) ∧
    resolveDirs none env p =
      (env.defaultOutputDir p, (env.defaultOutputDir p).dropLast) ∧
    Event.convertPdfCall p (resolveDirs args.output_path env p).1
        args.batch_multiplier args.max_pages args.start_page args.langs
      ∈ (processJob args env md p).1 := by
  refine ⟨rfl, rfl, ?_⟩
  rw [processJob_nonempty args env md p h2]
  rcases except_eq_cases (env.convertPdf p (resolveDirs args.output_path env p).1
      args.batch_multiplier args.max_pages args.start_page args.langs) with
    ⟨e, hc⟩ | ⟨u, hc⟩
  · simp [jobTry, h1, hc]
  · simp [jobTry, h1, hc]

/-- C1: a PDF whose document ID is absent from the metadata mapping makes the
run raise outside the per-job handler: every earlier job runs normally (the
trace is exactly theirs), the bad job stops at its opening print, the run ends
with the uncaught exception, and no later job is started. -/
theorem missing_metadata_aborts_batch (args : Args) (env : Env) (md : Metadata)
    (pre post : List PdfPath) (bad : PdfPath)
    (hpre : ∀ q ∈ pre, (metaLookup md q.stem).getD [] ≠ [])
    (hbad : metaLookup md bad.stem = none) :
    runQueue args env md (pre ++ bad :: post) =
      ((runQueue args env md pre).1 ++ [procLog bad],
       some ("No metadata found for " ++ bad.stem)) := by
  induction pre with
  | nil =>
      have h0 : (metaLookup md bad.stem).getD [] = [] := by rw [hbad]; rfl
      have hpj := processJob_empty args env md bad h0
      rw [List.nil_append,
        runQueue_cons_fatal args env md bad post ("No metadata found for " ++ bad.stem)
          (by rw [hpj]), hpj]
      simp [runQueue]
  | cons q qs ih =>
      have hq : (metaLookup md q.stem).getD [] ≠ [] :=
        hpre q (List.mem_cons_self q qs)
      have ih' := ih (fun r hr => hpre r (List.mem_cons_of_mem q hr))
      rw [List.cons_append,
        runQueue_cons args env md q (qs ++ bad :: post)
          (processJob_ne_fatal args env md q hq),
        ih',
        runQueue_cons args env md q qs (processJob_ne_fatal args env md q hq)]
      simp

/-- C9: a metadata record that is present for the document ID but empty is
treated exactly like an absent one: the job raises the fatal exception outside
the handler, the whole run ends there, and the job's processing coincides with
the processing under any mapping in which the ID is absent. -/
theorem empty_record_fatal_like_absent (args : Args) (env : Env) (md : Metadata)
    (p : PdfPath) (rest : List PdfPath)
    (h : metaLookup md p.stem = some []) :
    processJob args env md p =
      ([procLog p], JobOutcome.fatal ("No metadata found for " ++ p.stem)) ∧
    runQueue args env md (p :: rest) =
      ([procLog p], some ("No metadata found for " ++ p.stem)) ∧
    ∀ md2 : Metadata, metaLookup md2 p.stem = none →
      processJob args env md2 p = processJob args env md p := by
  have h0 : (metaLookup md p.stem).getD [] = [] := by rw [h]; rfl
  have hpj := processJob_empty args env md p h0
  refine ⟨hpj, ?_, ?_⟩
  · rw [runQueue_cons_fatal args env md p rest ("No metadata found for " ++ p.stem)
      (by rw [hpj]), hpj]
  · intro md2 h2
    rw [hpj, processJob_empty args env md2 p (by rw [h2]; rfl)]

/-- C3: a job with a present (nonempty) metadata record never raises outside
the per-job handler: any exception from the conversion stages or the metadata
assembly yields a caught failure that is logged with the filename, and the
loop continues with the rest of the queue unchanged. -/
theorem job_failures_are_caught (args : Args) (env : Env) (md : Metadata)
    (p : PdfPath) (rest : List PdfPath)
    (h : (metaLookup md p.stem).getD [] ≠ []) :
    (∀ e, (processJob args env md p).2 ≠ JobOutcome.fatal e) ∧
    (∀ msg, (processJob args env md p).2 = JobOutcome.failed msg →
      errLog p msg ∈ (processJob args env md p).1) ∧
    runQueue args env md (p :: rest) =
      ((processJob args env md p).1 ++ (runQueue args env md rest).1,
       (runQueue args env md rest).2) := by
  refine ⟨processJob_ne_fatal args env md p h, ?_,
    runQueue_cons args env md p rest (processJob_ne_fatal args env md p h)⟩
  intro msg hmsg
  rw [processJob_nonempty args env md p h] at hmsg ⊢
  exact List.mem_cons_of_mem _ (jobTry_failed_logged args env _ _ p _ msg hmsg)

/-- Case analysis on an `Option` value as explicit equations. -/
theorem option_eq_cases {α : Type} (x : Option α) : x = none ∨ ∃ v, x = some v := by
  cases x with
  | none => exact Or.inl rfl
  | some v => exact Or.inr ⟨v, rfl⟩

/-- C5: every metadata bundle handed to the Markdown-to-EPUB stage has its
rights field equal to the literal "All rights reserved" and its language field
equal to the lowercased "Language Code" value of the job's CSV record. -/
theorem epub_metadata_rights_language (args : Args) (env : Env) (md : Metadata)
    (p : PdfPath) (d o : Path) (m : EpubMeta)
    (h : Event.convertEpubCall d o m ∈ (processJob args env md p).1) :
    m.rights = "All rights reserved" ∧
    ∃ row v, metaLookup md p.stem = some row ∧
      rowLookup row "Language Code" = some v ∧ m.language = strLower v := by
  by_cases hrow : (metaLookup md p.stem).getD [] = []
  · rw [processJob_empty args env md p hrow] at h
    simp [procLog] at h
  · rw [processJob_nonempty args env md p hrow] at h
    have h' : Event.convertEpubCall d o m ∈
        (jobTry args env (resolveDirs args.output_path env p).1
          (resolveDirs args.output_path env p).2 p
          ((metaLookup md p.stem).getD [])).1 := by
      rcases List.mem_cons.mp h with h0 | h0
      · exact absurd h0 (by simp [procLog])
      · exact h0
    obtain ⟨-, -, hok⟩ := jobTry_call_inv args env _ _ d o p _ m h'
    obtain ⟨hr, ⟨v, hv, hl⟩, -⟩ := assembleEpubMeta_ok_spec _ m hok
    refine ⟨hr, ?_⟩
    rcases option_eq_cases (metaLookup md p.stem) with hm | ⟨row, hm⟩
    · rw [hm] at hrow
      exact absurd rfl hrow
    · rw [hm] at hv
      simp only [Option.getD_some] at hv
      exact ⟨row, v, hm, hv, hl⟩

/-- C6: under `--skip-md`, a job whose resolved markdown directory does not
exist is skipped after logging an error — its trace holds no conversion call,
only the two prints — and the loop continues with the rest of the queue. -/
theorem skip_md_missing_dir_skips_job (args : Args) (env : Env) (md : Metadata)
    (p : PdfPath) (rest : List PdfPath)
    (hs : args.skip_md = true)
    (hr : (metaLookup md p.stem).getD [] ≠ [])
    (hd : env.dirExists (resolveDirs args.output_path env p).1 = false) :
    processJob args env md p =
      ([procLog p,
        Event.log ("Error: Markdown directory not found: " ++
          pathStr (resolveDirs args.output_path env p).1)],
       JobOutcome.skipped) ∧
    runQueue args env md (p :: rest) =
      ((processJob args env md p).1 ++ (runQueue args env md rest).1,
       (runQueue args env md rest).2) := by
  refine ⟨?_, runQueue_cons args env md p rest (processJob_ne_fatal args env md p hr)⟩
  rw [processJob_nonempty args env md p hr]
  simp [jobTry, hs, hd]

/-- C7: under `--skip-md` with an existing markdown directory, the
PDF-to-Markdown stage is never invoked for the job, and whenever the metadata
assembly succeeds, the Markdown-to-EPUB stage is invoked on the existing
markdown directory and the resolved output path. -/
theorem skip_md_existing_dir_no_pdf_stage (args : Args) (env : Env) (md : Metadata)
    (p : PdfPath)
    (hs : args.skip_md = true)
    (hr : (metaLookup md p.stem).getD [] ≠ [])
    (hd : env.dirExists (resolveDirs args.output_path env p).1 = true) :
    (∀ q dd bm mp sp l,
      Event.convertPdfCall q dd bm mp sp l ∉ (processJob args env md p).1) ∧
    (∀ m, assembleEpubMeta ((metaLookup md p.stem).getD []) = Except.ok m →
      Event.convertEpubCall (resolveDirs args.output_path env p).1
        (resolveDirs args.output_path env p).2 m ∈ (processJob args env md p).1) := by
  rw [processJob_nonempty args env md p hr,
    jobTry_skip_exists args env _ _ p _ hs hd]
  constructor
  · intro q dd bm mp sp l hmem
    rcases List.mem_cons.mp hmem with h0 | h0
    · exact absurd h0 (by simp [procLog])
    · rcases List.mem_cons.mp h0 with h1 | h1
      · exact absurd h1 (by simp)
      · exact epubStage_no_pdfCall env _ _ p _ q dd bm mp sp l h1
  · intro m hok
    refine List.mem_cons_of_mem _ (List.mem_cons_of_mem _ ?_)
    unfold epubStage
    rw [hok]
    rcases except_eq_cases (env.convertToEpub (resolveDirs args.output_path env p).1
        (resolveDirs args.output_path env p).2 m) with ⟨e, hc⟩ | ⟨u, hc⟩
    · simp [hc]
    · simp [hc]

/-- C10: a nonempty metadata record that lacks one of the six required fields
makes the metadata assembly raise a lookup error once the job reaches it: the
job fails inside the per-job handler, the failure is logged with the filename,
the Markdown-to-EPUB stage is never invoked for the job, and the loop
continues with the rest of the queue — unlike a fully missing record, the run
is not aborted. -/
theorem missing_field_fails_job_only (args : Args) (env : Env) (md : Metadata)
    (p : PdfPath) (rest : List PdfPath) (row : Row) (f : String)
    (hrow : metaLookup md p.stem = some row) (hne : row ≠ [])
    (hf : f ∈ ["Title", "Authors", "Language Code", "Publisher",
      "PublicationDate", "EIsbn"])
    (hmiss : rowLookup row f = none)
    (hreach : (args.skip_md = true ∧
        env.dirExists (resolveDirs args.output_path env p).1 = true) ∨
      (args.skip_md = false ∧
        env.convertPdf p (resolveDirs args.output_path env p).1
          args.batch_multiplier args.max_pages args.start_page args.langs =
          Except.ok ())) :
    ∃ e, (processJob args env md p).2 = JobOutcome.failed e ∧
      errLog p e ∈ (processJob args env md p).1 ∧
      (∀ d o m, Event.convertEpubCall d o m ∉ (processJob args env md p).1) ∧
      runQueue args env md (p :: rest) =
        ((processJob args env md p).1 ++ (runQueue args env md rest).1,
         (runQueue args env md rest).2) := by
  have hgetD : (metaLookup md p.stem).getD [] = row := by rw [hrow]; rfl
  have hr : (metaLookup md p.stem).getD [] ≠ [] := by rw [hgetD]; exact hne
  have hErr : ∃ e, assembleEpubMeta row = Except.error e := by
    rcases except_eq_cases (assembleEpubMeta row) with ⟨e, hA⟩ | ⟨m, hA⟩
    · exact ⟨e, hA⟩
    · obtain ⟨-, -, hfields⟩ := assembleEpubMeta_ok_spec row m hA
      have hsome := hfields f hf
      rw [hmiss] at hsome
      cases hsome
  obtain ⟨e, hA⟩ := hErr
  refine ⟨e, ?_, ?_, ?_,
    runQueue_cons args env md p rest (processJob_ne_fatal args env md p hr)⟩
  all_goals rw [processJob_nonempty args env md p hr, hgetD]
  all_goals rcases hreach with ⟨hs, hd⟩ | ⟨hs, hc⟩
  · rw [jobTry_skip_exists args env _ _ p row hs hd,
      epubStage_error env _ _ p row e hA]
  · rw [jobTry_md_ok args env _ _ p row hs hc,
      epubStage_error env _ _ p row e hA]
  · rw [jobTry_skip_exists args env _ _ p row hs hd,
      epubStage_error env _ _ p row e hA]
    simp [errLog]
  · rw [jobTry_md_ok args env _ _ p row hs hc,
      epubStage_error env _ _ p row e hA]
    simp [errLog]
  · intro d o m
    rw [jobTry_skip_exists args env _ _ p row hs hd,
      epubStage_error env _ _ p row e hA]
    simp [procLog, errLog]
  · intro d o m
    rw [jobTry_md_ok args env _ _ p row hs hc,
      epubStage_error env _ _ p row e hA]
    simp [procLog, errLog]

/-! ### Concrete fixtures for the witnesses -/

/-- A complete CSV row for document `doc1`. -/
def row1 : Row :=
  [("Document ID", "doc1"), ("Title", "T1"), ("Authors", "A1"),
   ("Language Code", "EN"), ("Publisher", "P1"), ("PublicationDate", "2020"),
   ("EIsbn", "111")]

/-- A row for `doc1` lacking the `EIsbn` field. -/
def row2 : Row :=
  [("Document ID", "doc1"), ("Title", "T1"), ("Authors", "A1"),
   ("Language Code", "EN"), ("Publisher", "P1"), ("PublicationDate", "2020")]

/-- Metadata holding exactly the complete row for `doc1`. -/
def md1 : Metadata := [("doc1", row1)]

/-- Metadata holding an empty record for `doc1`. -/
def md2 : Metadata := [("doc1", [])]

/-- Metadata holding the `EIsbn`-less record for `doc1`. -/
def md3 : Metadata := [("doc1", row2)]

/-- The queue entry for `doc1.pdf`. -/
def p1 : PdfPath := { stem := "doc1", name := "doc1.pdf" }

/-- The queue entry for `doc2.pdf`. -/
def p2 : PdfPath := { stem := "doc2", name := "doc2.pdf" }

/-- An environment in which every directory exists and both external stages
return normally. -/
def env1 : Env :=
  { cudaAvailable := false,
    defaultInputDir := "input",
    addPdfsToQueue := fun _ => [p1],
    defaultOutputDir := fun p => ["out", p.stem],
    dirExists := fun _ => true,
    convertPdf := fun _ _ _ _ _ _ => Except.ok (),
    convertToEpub := fun _ _ _ => Except.ok () }

/-- The same environment with no directory existing. -/
def env2 : Env := { env1 with dirExists := fun _ => false }

/-- The metadata bundle assembled from `row1`. -/
def m1 : EpubMeta :=
  { title := "T1", authors := "A1", language := "en", publisher := "P1",
    publication_date := "2020", identifier := "111",
    rights := "All rights reserved" }

/-! ### Witnesses -/

/-- Witness for C1 on a concrete queue: with metadata only for `doc1`, the
run processes `doc1.pdf`, then aborts at `doc2.pdf`. -/
theorem missing_metadata_aborts_batch_witness :
    runQueue {} env1 md1 [p1, p2] =
      ((runQueue {} env1 md1 [p1]).1 ++ [procLog p2],
       some ("No metadata found for " ++ p2.stem)) :=
  missing_metadata_aborts_batch {} env1 md1 [p1] [] p2 (by decide) (by decide)

/-- Witness for C3 at a concrete job with a present record. -/
theorem job_failures_are_caught_witness :
    (∀ e, (processJob {} env1 md1 p1).2 ≠ JobOutcome.fatal e) ∧
    (∀ msg, (processJob {} env1 md1 p1).2 = JobOutcome.failed msg →
      errLog p1 msg ∈ (processJob {} env1 md1 p1).1) ∧
    runQueue {} env1 md1 [p1] =
      ((processJob {} env1 md1 p1).1 ++ (runQueue {} env1 md1 []).1,
       (runQueue {} env1 md1 []).2) :=
  job_failures_are_caught {} env1 md1 p1 [] (by decide)

/-- Witness for C5 at the concrete EPUB call emitted for `doc1`. -/
theorem epub_metadata_rights_language_witness :
    m1.rights = "All rights reserved" ∧
    ∃ row v, metaLookup md1 p1.stem = some row ∧
      rowLookup row "Language Code" = some v ∧ m1.language = strLower v :=
  epub_metadata_rights_language {} env1 md1 p1 ["out", "doc1"] ["out"] m1
    (by decide)

/-- Witness for C6 at a concrete job under `--skip-md` with no markdown
directory. -/
theorem skip_md_missing_dir_skips_job_witness :
    processJob { skip_md := true } env2 md1 p1 =
      ([procLog p1,
        Event.log ("Error: Markdown directory not found: " ++
          pathStr (resolveDirs ({ skip_md := true } : Args).output_path env2 p1).1)],
       JobOutcome.skipped) ∧
    runQueue { skip_md := true } env2 md1 [p1] =
      ((processJob { skip_md := true } env2 md1 p1).1 ++
        (runQueue { skip_md := true } env2 md1 []).1,
       (runQueue { skip_md := true } env2 md1 []).2) :=
  skip_md_missing_dir_skips_job { skip_md := true } env2 md1 p1 [] rfl
    (by decide) rfl

/-- Witness for C7 at a concrete job under `--skip-md` with the markdown
directory present. -/
theorem skip_md_existing_dir_no_pdf_stage_witness :
    (∀ q dd bm mp sp l, Event.convertPdfCall q dd bm mp sp l ∉
      (processJob { skip_md := true } env1 md1 p1).1) ∧
    (∀ m, assembleEpubMeta ((metaLookup md1 p1.stem).getD []) = Except.ok m →
      Event.convertEpubCall
          (resolveDirs ({ skip_md := true } : Args).output_path env1 p1).1
          (resolveDirs ({ skip_md := true } : Args).output_path env1 p1).2 m
        ∈ (processJob { skip_md := true } env1 md1 p1).1) :=
  skip_md_existing_dir_no_pdf_stage { skip_md := true } env1 md1 p1 rfl
    (by decide) rfl

/-- Witness for C8 at a concrete job and explicit output path. -/
theorem directory_resolution_witness :
    resolveDirs (some ["o"]) env1 p1 = (["o"] ++ [p1.stem], ["o"]) ∧
    resolveDirs none env1 p1 =
      (env1.defaultOutputDir p1, (env1.defaultOutputDir p1).dropLast) ∧
    Event.convertPdfCall p1 (resolveDirs ({} : Args).output_path env1 p1).1
        ({} : Args).batch_multiplier ({} : Args).max_pages ({} : Args).start_page
        ({} : Args).langs
      ∈ (processJob {} env1 md1 p1).1 :=
  directory_resolution {} env1 md1 p1 ["o"] rfl (by decide)

/-- Witness for C9 at a concrete mapping with an empty record for `doc1`. -/
theorem empty_record_fatal_like_absent_witness :
    processJob {} env1 md2 p1 =
      ([procLog p1], JobOutcome.fatal ("No metadata found for " ++ p1.stem)) ∧
    runQueue {} env1 md2 [p1] =
      ([procLog p1], some ("No metadata found for " ++ p1.stem)) ∧
    (∀ md0 : Metadata, metaLookup md0 p1.stem = none →
      processJob {} env1 md0 p1 = processJob {} env1 md2 p1) :=
  empty_record_fatal_like_absent {} env1 md2 p1 [] (by decide)

/-- Witness for C10 at a concrete record lacking `EIsbn`, reached through the
`--skip-md` path. -/
theorem missing_field_fails_job_only_witness :
    ∃ e, (processJob { skip_md := true } env1 md3 p1).2 = JobOutcome.failed e ∧
      errLog p1 e ∈ (processJob { skip_md := true } env1 md3 p1).1 ∧
      (∀ d o m, Event.convertEpubCall d o m ∉
        (processJob { skip_md := true } env1 md3 p1).1) ∧
      runQueue { skip_md := true } env1 md3 [p1] =
        ((processJob { skip_md := true } env1 md3 p1).1 ++
          (runQueue { skip_md := true } env1 md3 []).1,
         (runQueue { skip_md := true } env1 md3 []).2) :=
  missing_field_fails_job_only { skip_md := true } env1 md3 p1 [] row2 "EIsbn"
    (by decide) (by decide) (by decide) (by decide) (Or.inl ⟨rfl, rfl⟩)

end Ebc
